import Mathlib

/-
Verification of the core of uridiag.c (DMK Engineering URI diagnostic tool)
against its natural-language specification.  The C functions are shallowly
embedded: machine integers become Nat with explicit reductions modulo 2^8 or
2^16 where the C types (unsigned char, unsigned short) wrap, the EEPROM device
state is a function from addresses to stored words, and every USB control
transfer issued by a function is recorded as an element of an operation trace.
-/

namespace Uridiag

/-- Device variants, from the source enumeration: DEV_C108, DEV_C108AH, DEV_C119. -/
inductive DevType
| DEV_C108
| DEV_C108AH
| DEV_C119
deriving DecidableEq

open DevType

/-- All three device variants, in enumeration order. -/
def allDevTypes : List DevType := [DEV_C108, DEV_C108AH, DEV_C119]

/-- One USB HID control transfer: an output report carrying a 4-byte frame, or an
input-report request. -/
inductive UsbOp
| ctrlOut (frame : List Nat)
| ctrlIn
deriving DecidableEq, BEq

/-- Embeds set_outputs: the body performs a usleep and then exactly one
usb_control_msg output transfer; this is its transfer trace. -/
def set_outputs_ops (outputs : List Nat) : List UsbOp := [UsbOp.ctrlOut outputs]

/-- Embeds the value set_outputs returns to its caller.  The C function has return
type void and discards the status of usb_control_msg, so the caller receives no
information; the transfer status argument models the libusb result (negative on
failure). -/
def set_outputs_ret (outputs : List Nat) (transfer_status : Int) : Unit := ()

/-- Embeds get_inputs: the body performs a usleep and then exactly one
usb_control_msg input transfer; this is its transfer trace. -/
def get_inputs_ops : List UsbOp := [UsbOp.ctrlIn]

/-- Embeds the caller-visible buffer after get_inputs.  resp models the outcome of
the control transfer: none is a failed transfer (the caller's buffer is left as it
was), some r is a successful transfer filling the buffer with r. -/
def get_inputs_buf (inputs : List Nat) (resp : Option (List Nat)) : List Nat :=
  match resp with
  | none => inputs
  | some r => r

/-- Embeds the value get_inputs returns to its caller: the C function has return
type void and discards the usb_control_msg status. -/
def get_inputs_ret (inputs : List Nat) (resp : Option (List Nat)) : Unit := ()

/-- Embeds getin.  b0 and b1 are bytes 0 and 1 of the input report (unsigned
char).  Bit operations on the source are rendered arithmetically:
buf[1] & 0xf is b1 % 16, (buf[0] & 3) << 4 is b0 % 4 * 16, buf[1] & 0xc0 is
b1 / 64 % 4 * 64, c &= 0xfd clears bit 1 and is c % 2 + c / 4 * 4 (c is below
256 on that path), and buf[0] & 0x10 tests b0 / 16 % 2. -/
def getin (devtype : DevType) (b0 b1 : Nat) : Nat :=
  let c0 := b1 % 16 + b0 % 4 * 16
  let c1 := if devtype = DEV_C119 then c0 + b1 / 64 % 4 * 64 else c0
  if devtype = DEV_C108AH then
    c1 % 2 + c1 / 4 * 4 + (if b0 / 16 % 2 = 0 then 2 else 0)
  else c1

/-- Embeds dioerror: err is got XOR should on unsigned chars, and one error is
counted for each set bit of err among 0x2, 0x10, 0x40, 0x80 (the source tests
no other bits). -/
def dioerror (got should : Nat) : Nat :=
  let err := Nat.xor (got % 256) (should % 256)
  (if Nat.land err 0x2 ≠ 0 then 1 else 0) +
  (if Nat.land err 0x10 ≠ 0 then 1 else 0) +
  (if Nat.land err 0x40 ≠ 0 then 1 else 0) +
  (if Nat.land err 0x80 ≠ 0 then 1 else 0)

/-- Embeds testio's error count: the readback getin(...) is masked with 0xf2 and
compared by dioerror against the expected pattern.  b0 and b1 are the bytes of
the input report the device returns for this step. -/
def testio_count (devtype : DevType) (b0 b1 : Nat) (toexpect : Nat) : Nat :=
  dioerror (Nat.land (getin devtype b0 b1) 0xf2) toexpect

/-- EEPROM_START_ADDR from the source: first user-segment address. -/
def EEPROM_START_ADDR : Nat := 51

/-- EEPROM_MAGIC from the source. -/
def EEPROM_MAGIC : Nat := 34329

/-- EEPROM_USER_CS_ADDR from the source: user-segment offset of the checksum word. -/
def EEPROM_USER_CS_ADDR : Nat := 12

/-- EEPROM_USER_SPARE from the source: user-segment offset of the spare word. -/
def EEPROM_USER_SPARE : Nat := 11

/-- Embeds the 4-byte frame read_eeprom sends: first byte 0x80, then 0, 0, and
0x80 or'd with the address masked to 6 bits (addr & 0x3f is addr % 64). -/
def read_eeprom_frame (addr : Nat) : List Nat :=
  [0x80, 0, 0, Nat.lor 0x80 (addr % 64)]

/-- Embeds the transfer trace of read_eeprom: one output report with the read
frame, then one input-report request. -/
def read_eeprom_ops (addr : Nat) : List UsbOp :=
  [UsbOp.ctrlOut (read_eeprom_frame addr), UsbOp.ctrlIn]

/-- Embeds the value read_eeprom computes from the input report:
buf[1] + (buf[2] << 8). -/
def read_eeprom_result (resp : List Nat) : Nat :=
  resp.getD 1 0 + resp.getD 2 0 * 2 ^ 8

/-- Embeds the 4-byte frame write_eeprom sends: first byte 0x80, then the data's
low byte, the data's high byte (the parameter is an unsigned short, so the
argument is reduced modulo 2^16), and 0xC0 or'd with the address masked to
6 bits. -/
def write_eeprom_frame (addr data : Nat) : List Nat :=
  [0x80, data % 65536 % 256, data % 65536 / 256, Nat.lor 0xc0 (addr % 64)]

/-- Embeds the transfer trace of write_eeprom: a single output report and no
input-report request (no readback). -/
def write_eeprom_ops (addr data : Nat) : List UsbOp :=
  [UsbOp.ctrlOut (write_eeprom_frame addr data)]

/-- Device-level semantics of read_eeprom: the EEPROM state mem maps addresses to
stored 16-bit words; the device decodes the 6-bit address from the frame and
returns the word there, which read_eeprom reassembles from the two response
bytes. -/
def read_eeprom_word (mem : Nat → Nat) (addr : Nat) : Nat :=
  mem (addr % 64) % 65536

/-- Device-level semantics of write_eeprom: the word at the 6-bit address decoded
from the frame is replaced by the sent 16-bit data; all other words are
untouched. -/
def write_eeprom_word (mem : Nat → Nat) (addr data : Nat) : Nat → Nat :=
  fun a => if a = addr % 64 then data % 65536 else mem a

/-- Applies a list of (address, data) single-word writes to an EEPROM state in
order. -/
def apply_writes (mem : Nat → Nat) (ws : List (Nat × Nat)) : Nat → Nat :=
  ws.foldl (fun m p => write_eeprom_word m p.1 p.2) mem

/-- Embeds get_eeprom's word reads: addresses 51 through 63 inclusive, returned as
the 13-word user buffer. -/
def get_eeprom_words (mem : Nat → Nat) : List Nat :=
  (List.range' EEPROM_START_ADDR 13).map (fun i => read_eeprom_word mem i)

/-- Embeds get_eeprom's return value: the checksum accumulator starts at 0xffff
and adds every word read, wrapping as an unsigned short. -/
def get_eeprom_cs (mem : Nat → Nat) : Nat :=
  (0xffff + (get_eeprom_words mem).sum) % 65536

/-- Embeds the first statement of put_eeprom: the caller's 13-word user buffer
with word 0 forced to EEPROM_MAGIC.  The buffer is modelled as a function so
that the out-of-range indices the source also reads stay denotable. -/
def put_buf_magic (buf : Nat → Nat) : Nat → Nat :=
  fun k => if k = 0 then EEPROM_MAGIC else buf k

/-- Embeds put_eeprom's checksum accumulation exactly as written in the source:
the loop runs i from 51 to 62 and executes cs += buf[i] — the index is i
itself, not i - 51, so the sum ranges over buffer entries 51 through 62. -/
def put_eeprom_cs (buf : Nat → Nat) : Nat :=
  (0xffff + ((List.range' EEPROM_START_ADDR 12).map (fun i => put_buf_magic buf i)).sum) % 65536

/-- Embeds the checksum word put_eeprom stores at user offset 12:
(65535 - cs) + 1, assigned to an unsigned short. -/
def put_eeprom_csword (buf : Nat → Nat) : Nat :=
  (65535 - put_eeprom_cs buf + 1) % 65536

/-- Embeds the sequence of (address, data) writes put_eeprom issues: addresses 51
through 62 carry buffer words 0 through 11 (after the magic was forced into
word 0), then address 63 carries the checksum word. -/
def put_eeprom_writes (buf : Nat → Nat) : List (Nat × Nat) :=
  (List.range' EEPROM_START_ADDR 12).map (fun i => (i, put_buf_magic buf (i - EEPROM_START_ADDR)))
    ++ [(63, put_eeprom_csword buf)]

/-- EEPROM state after put_eeprom runs on state mem with caller buffer buf. -/
def put_eeprom_mem (mem : Nat → Nat) (buf : Nat → Nat) : Nat → Nat :=
  apply_writes mem (put_eeprom_writes buf)

/-- The fixed CM-119B manufacturer table from the source, 51 sixteen-bit words. -/
def cm119b_manufacturer_data : List Nat :=
  [0x670d, 0x0d8c, 0x0013, 0x0000, 0x0000,
   0x0000, 0x0000, 0x0000, 0x0000, 0x0000, 0x5522, 0x4253, 0x4120, 0x6475, 0x6f69,
   0x4420, 0x7665, 0x6369, 0x0065, 0x0000, 0x0000, 0x0000, 0x0000, 0x0000, 0x0000,
   0x0000, 0x4332, 0x4d2d, 0x6465, 0x6169, 0x4520, 0x656c, 0x7463, 0x6f72, 0x696e,
   0x7363, 0x4920, 0x636e, 0x002e, 0x0000, 0x0000, 0x0000, 0x14c8, 0xf21a, 0x0000,
   0x0000, 0x0000, 0x0000, 0x0000, 0x0000, 0x0000]

/-- The loop bound of put_eeprom_mfg_data as the source computes it: the C
expression sizeof(cm119b_manufacturer_data) is the byte size of the array,
two bytes per unsigned short — 102, not the element count 51. -/
def cm119b_manufacturer_data_sizeof : Nat := 2 * cm119b_manufacturer_data.length

/-- Embeds the sequence of (address, data) writes put_eeprom_mfg_data issues: one
write_eeprom call per loop index i below sizeof(cm119b_manufacturer_data).
For i beyond the 51 table entries the source reads past the array; junk models
those indeterminate values. -/
def put_eeprom_mfg_writes (junk : Nat → Nat) : List (Nat × Nat) :=
  (List.range cm119b_manufacturer_data_sizeof).map
    (fun i => (i, cm119b_manufacturer_data.getD i (junk i)))

/-- Embeds the gate in main's menu: the manufacturer write is reached only when
devproductid equals C119B_PRODUCT_ID (0x0013); for any other product the menu
prints a refusal and does not call put_eeprom_mfg_data. -/
def mfg_write_reachable (productid : Nat) : Bool := productid == 0x0013

/-- Embeds eeprom_test's single write: the sentinel 0x6942 to address
EEPROM_START_ADDR + EEPROM_USER_SPARE = 62. -/
def eeprom_test_writes : List (Nat × Nat) :=
  [(EEPROM_START_ADDR + EEPROM_USER_SPARE, 0x6942)]

/-- EEPROM state after eeprom_test runs on state mem. -/
def eeprom_test_mem (mem : Nat → Nat) : Nat → Nat :=
  apply_writes mem eeprom_test_writes

/-- Embeds eeprom_test's error count: the spare word is read back and compared
against the sentinel. -/
def eeprom_test_nerror (mem : Nat → Nat) : Nat :=
  if read_eeprom_word (eeprom_test_mem mem) (EEPROM_START_ADDR + EEPROM_USER_SPARE) = 0x6942
  then 0 else 1

/-- Per-channel oscillator state from the source structure tonevars.  The C
floats are modelled with exact rational arithmetic. -/
structure tonevars where
  mycr : ℚ
  myci : ℚ
deriving DecidableEq

/-- Embeds get_tonesample: one complex rotation of the rotor by (ddr, ddi), the
first-order renormalization by 2 - |rotor|^2, and the variant-dependent return
value: the raw real component for DEV_C108AH and DEV_C119, and the real
component scaled by 0.9092 otherwise.  Returns the updated state and the
returned sample. -/
def get_tonesample (devtype : DevType) (tvars : tonevars) (ddr ddi : ℚ) : tonevars × ℚ :=
  let t := tvars.mycr * ddr - tvars.myci * ddi
  let myci := tvars.mycr * ddi + tvars.myci * ddr
  let mycr := t
  let t2 := 2 - (mycr * mycr + myci * myci)
  let mycr2 := mycr * t2
  let myci2 := myci * t2
  (⟨mycr2, myci2⟩, if devtype = DEV_C108AH ∨ devtype = DEV_C119 then mycr2 else mycr2 * 0.9092)

/-- The amplitude correction factor get_tonesample applies per variant, read off
the source branch: 0.9092 for the base DEV_C108, 1 for the other two. -/
def amp_factor : DevType → ℚ
  | DEV_C108 => 0.9092
  | DEV_C108AH => 1
  | DEV_C119 => 1

/-- Embeds one output sample of outaudio for an active channel: the value
get_tonesample returns, scaled by 32765 before being stored in the 16-bit
output buffer. -/
def outaudio_sample (devtype : DevType) (tvars : tonevars) (ddr ddi : ℚ) : tonevars × ℚ :=
  let r := get_tonesample devtype tvars ddr ddi
  (r.1, r.2 * 32765)

/-- NFFT from the source: the transform length. -/
def NFFT : Nat := 1024

/-- Embeds buck, the center frequency of spectral bin i in soundthread:
(float) i * 46.875. -/
def binfreq (i : Nat) : ℚ := (i : Nat) * (46.875 : ℚ)

/-- Magnitude squared of spectral bin i, from the real and imaginary parts of the
transformed block: afft[2i]^2 + afft[2i+1]^2. -/
def mag2 (re im : Nat → ℚ) (i : Nat) : ℚ := re i * re i + im i * im i

/-- Embeds the mylev1 accumulation loop of soundthread: i runs from 1 while
i < NFFT / 2, and the bin's magnitude squared is added exactly when the target
frequency is positive and |buck - target| < 1.5 * 46.875. -/
def mylev1_acc (re im : Nat → ℚ) (f : ℚ) : ℚ :=
  (List.range' 1 (NFFT / 2 - 1)).foldl
    (fun acc i =>
      if 0 < f then (if |binfreq i - f| < 1.5 * 46.875 then acc + mag2 re im i else acc)
      else acc) 0

/-- Modelled from the spec's words, for comparison with the source loop: the bins
the analyzer must select are those i with 1 <= i < 512 whose center frequency
i * (48000 / 1024) lies within 1.5 * (48000 / 1024) Hz of the target. -/
def spec_selected_bins (f : ℚ) : List Nat :=
  (List.range' 1 511).filter
    (fun i => decide (|(i : Nat) * ((48000 : ℚ) / 1024) - f| < 1.5 * ((48000 : ℚ) / 1024)))

/-- Modelled from the spec's words: the per-target energy sum is the sum of the
magnitude squared over exactly the selected bins. -/
def spec_lev1_sum (re im : Nat → ℚ) (f : ℚ) : ℚ :=
  ((spec_selected_bins f).map (fun i => mag2 re im i)).sum

/-- A concrete EEPROM image whose user segment is valid: the magic constant at
address 51, zeros elsewhere, and the checksum word at address 63 chosen so
the user-segment checksum comes out 0 (65535 + 34329 + 31208 is exactly
2 * 65536). -/
def valid_user_mem : Nat → Nat :=
  fun a => if a = 51 then 34329 else if a = 63 then 31208 else 0

open DevType

/-- Evaluation helper: the list of addresses get_eeprom visits. -/
theorem range13_eval :
    List.range' (51 : Nat) 13 = [51, 52, 53, 54, 55, 56, 57, 58, 59, 60, 61, 62, 63] := by
  decide

/-- Evaluation helper: the list of addresses put_eeprom's loop visits. -/
theorem range12_eval :
    List.range' (51 : Nat) 12 = [51, 52, 53, 54, 55, 56, 57, 58, 59, 60, 61, 62] := by
  decide

/-- A left fold that conditionally accumulates ms i equals the initial value plus
the sum of ms over the filtered list. -/
theorem foldl_if_filter_sum (ms : Nat → ℚ) (p : Nat → Prop) [DecidablePred p] :
    ∀ (l : List Nat) (a : ℚ),
      l.foldl (fun acc i => if p i then acc + ms i else acc) a
        = a + ((l.filter (fun i => decide (p i))).map ms).sum := by
  intro l
  induction l with
  | nil => intro a; simp
  | cons x xs ih =>
    intro a
    by_cases hx : p x
    · simp [List.filter_cons, hx, ih, add_assoc]
    · simp [List.filter_cons, hx, ih]

/-- Or-ing a 6-bit value into 0x80 or 0xc0 is plain addition, because the low six
bits of those command bytes are clear. -/
theorem lor_small_aux :
    ∀ m, m < 64 → Nat.lor 0x80 m = 0x80 + m ∧ Nat.lor 0xc0 m = 0xc0 + m := by decide

/-- Claim C1: the spec asserts that writing the full user segment and reading it
back yields checksum 0 with the magic constant in word 0.  The code refutes the
checksum half: put_eeprom accumulates buf[i] for i = 51..62 instead of the
words it actually writes (buf[i - 51]), so for the all-zero image (exactly what
eeprom_init passes) the rolling sum stays 0xffff, the stored checksum word is 1,
and the read-back checksum is 34329, not 0.  The magic constant itself does
round-trip. -/
theorem C1_roundtrip_checksum_not_zero :
    read_eeprom_word (put_eeprom_mem (fun _ => 0) (fun _ => 0)) 51 = EEPROM_MAGIC ∧
    put_eeprom_cs (fun _ => 0) = 0xffff ∧
    get_eeprom_cs (put_eeprom_mem (fun _ => 0) (fun _ => 0)) = 34329 ∧
    (34329 : Nat) ≠ 0 := by decide

/-- Claim C2: the spec asserts the manufacturer write covers exactly addresses
0..50 with the 51-word table.  The code refutes this: the loop bound is the C
byte size of the array (102), so 102 single-word writes are issued; addresses
62 and 63 (user spare and checksum) are hit, and the 6-bit address wrap makes
address 0 be written twice.  The CM-119B product-id gate itself holds. -/
theorem C2_mfg_write_loop_overruns :
    cm119b_manufacturer_data.length = 51 ∧
    cm119b_manufacturer_data_sizeof = 102 ∧
    (put_eeprom_mfg_writes (fun _ => 0)).length = 102 ∧
    ((put_eeprom_mfg_writes (fun _ => 0)).map (fun p => p.1 % 64)).contains 62 = true ∧
    ((put_eeprom_mfg_writes (fun _ => 0)).map (fun p => p.1 % 64)).contains 63 = true ∧
    ((put_eeprom_mfg_writes (fun _ => 0)).map (fun p => p.1 % 64)).count 0 = 2 ∧
    mfg_write_reachable 0x0013 = true ∧
    mfg_write_reachable 0x000c = false := by decide

/-- Claim C3: the spec asserts every mismatched bit under mask 0xf2 is counted
and reported.  The code refutes this for bit 0x20 (the COR input):
dioerror tests only bits 0x2, 0x10, 0x40 and 0x80, so a readback of 0x22
against expected 0x02 (the pattern-0x9 loopback step with a spurious COR bit),
or a dead COR line in the GPIO4-to-COR step (got 0, expected 0x20), is counted
as zero errors. -/
theorem C3_dioerror_ignores_cor_bit :
    Nat.land (Nat.xor 0x22 0x02) 0xf2 = 0x20 ∧
    dioerror 0x22 0x02 = 0 ∧
    dioerror 0x00 0x20 = 0 ∧
    testio_count DEV_C108 2 2 2 = 0 := by decide

/-- Claim C4, counterexample: a failed control transfer is not distinguishable by
the caller from a successful one — set_outputs and get_inputs return void, and
a failed input request leaves the caller's zeroed buffer identical to a
successful transfer that returned zeros — refuting the claimed sentinel
failure value. -/
theorem C4_failure_indistinguishable :
    set_outputs_ret [0, 0, 0xd, 0] (-1) = set_outputs_ret [0, 0, 0xd, 0] 0 ∧
    get_inputs_ret [0, 0, 0, 0] none = get_inputs_ret [0, 0, 0, 0] (some [0, 0, 0, 0]) ∧
    get_inputs_buf [0, 0, 0, 0] none = get_inputs_buf [0, 0, 0, 0] (some [0, 0, 0, 0]) :=
  ⟨rfl, rfl, rfl⟩

/-- Claim C4 as amended: each call performs exactly one control transfer with no
automatic retry, but both functions return void, so a transfer failure is not
surfaced to the caller; a failed get_inputs leaves the caller's buffer
unchanged. -/
theorem C4_amended_single_transfer_void_result (outputs inputs : List Nat) (st : Int) :
    (set_outputs_ops outputs).length = 1 ∧
    set_outputs_ret outputs st = () ∧
    get_inputs_ops.length = 1 ∧
    get_inputs_buf inputs none = inputs ∧
    get_inputs_ret inputs none = get_inputs_ret inputs (some inputs) :=
  ⟨rfl, rfl, rfl, rfl, rfl⟩

/-- Claim C5: the user-segment write path addresses exactly the thirteen EEPROM
words 51 through 63, for every input image; no buffer contents can steer a
write into the manufacturer segment 0..50. -/
theorem C5_put_eeprom_addresses_in_user_segment (buf : Nat → Nat) :
    (put_eeprom_writes buf).map Prod.fst
      = [51, 52, 53, 54, 55, 56, 57, 58, 59, 60, 61, 62, 63] ∧
    ((put_eeprom_writes buf).map Prod.fst).all
      (fun a => decide (51 ≤ a ∧ a ≤ 63 ∧ ¬ a ≤ 50)) = true := by
  have hmap : (put_eeprom_writes buf).map Prod.fst
      = [51, 52, 53, 54, 55, 56, 57, 58, 59, 60, 61, 62, 63] := by
    simp only [put_eeprom_writes, EEPROM_START_ADDR, range12_eval]
    simp
  exact ⟨hmap, by rw [hmap]; decide⟩

/-- Claim C6, counterexample: the amplitude correction factor is not reduced
below 1 for two of the three variants — filtering the three variants by a
factor below 1 leaves exactly one (the base CM108), so the count is not 2. -/
theorem C6_not_two_variants_reduced :
    ¬ ((allDevTypes.filter (fun d => decide (amp_factor d < 1))).length = 2) := by
  have h1 : (0.9092 : ℚ) < 1 := by norm_num
  simp [allDevTypes, amp_factor, List.filter, h1]

/-- Claim C6 as amended: every generated sample is the rotor's real component
times a variant-dependent amplitude factor, then scaled by 32765 into the
signed 16-bit output; the factor is reduced below 1 for exactly one of the
three variants (0.9092 for the base CM108) and is 1 for CM108AH and CM119. -/
theorem C6_amended_amp_factor (d : DevType) (tv : tonevars) (ddr ddi : ℚ) :
    (get_tonesample d tv ddr ddi).2 = (get_tonesample d tv ddr ddi).1.mycr * amp_factor d ∧
    (outaudio_sample d tv ddr ddi).2
      = (get_tonesample d tv ddr ddi).1.mycr * amp_factor d * 32765 ∧
    (allDevTypes.filter (fun x => decide (amp_factor x < 1))).length = 1 ∧
    amp_factor DEV_C108 = 0.9092 ∧ amp_factor DEV_C108 < 1 ∧
    amp_factor DEV_C108AH = 1 ∧ amp_factor DEV_C119 = 1 := by
  have h1 : (0.9092 : ℚ) < 1 := by norm_num
  refine ⟨?_, ?_, ?_, rfl, h1, rfl, rfl⟩
  · cases d <;> simp [get_tonesample, amp_factor]
  · cases d <;> simp [get_tonesample, outaudio_sample, amp_factor]
  · simp [allDevTypes, amp_factor, List.filter, h1]

/-- Claim C7: with transform length 1024 at 48000 samples per second, bin i has
center frequency i * 46.875 = i * 48000 / 1024; for a positive target the
source loop accumulates the magnitude squared of exactly the bins
1 <= i < 512 whose center frequency is within 1.5 * 46.875 of the target, and
the reported level is sqrt of that sum divided by 512 and scaled by 4096. -/
theorem C7_analyzer_band_selection (re im : Nat → ℚ) (f : ℚ) (i : Nat) (hf : 0 < f) :
    mylev1_acc re im f = spec_lev1_sum re im f ∧
    binfreq i = (i : Nat) * ((48000 : ℚ) / 1024) ∧
    Real.sqrt ((mylev1_acc re im f : ℚ) : ℝ) / ((NFFT : ℝ) / 2) * 4096
      = Real.sqrt ((spec_lev1_sum re im f : ℚ) : ℝ) / 512 * 4096 := by
  have hq : ((48000 : ℚ) / 1024) = 46.875 := by norm_num
  have hn : NFFT / 2 - 1 = 511 := by norm_num [NFFT]
  have hsum : mylev1_acc re im f = spec_lev1_sum re im f := by
    unfold mylev1_acc spec_lev1_sum spec_selected_bins binfreq
    rw [hn]
    simp only [hq, hf, if_true, ite_true]
    exact (foldl_if_filter_sum (fun j => mag2 re im j)
      (fun j => |(j : ℚ) * 46.875 - f| < 1.5 * 46.875) (List.range' 1 511) 0).trans
      (zero_add _)
  refine ⟨hsum, by rw [binfreq, hq], ?_⟩
  rw [hsum]
  norm_num [NFFT]

/-- Witness for C7 at the 1004 Hz test tone with a concrete spectrum. -/
theorem C7_analyzer_band_selection_witness :
    (0 : ℚ) < 1004 ∧
    (mylev1_acc (fun _ => 1) (fun _ => 0) 1004 = spec_lev1_sum (fun _ => 1) (fun _ => 0) 1004 ∧
     binfreq 21 = (21 : Nat) * ((48000 : ℚ) / 1024) ∧
     Real.sqrt ((mylev1_acc (fun _ => 1) (fun _ => 0) 1004 : ℚ) : ℝ) / ((NFFT : ℝ) / 2) * 4096
       = Real.sqrt ((spec_lev1_sum (fun _ => 1) (fun _ => 0) 1004 : ℚ) : ℝ) / 512 * 4096) :=
  ⟨by norm_num, C7_analyzer_band_selection (fun _ => 1) (fun _ => 0) 1004 21 (by norm_num)⟩

/-- Claim C8: the single-word read sends [0x80, 0, 0, 0x80 or (addr and 0x3f)]
and returns response byte 1 plus response byte 2 shifted left 8; the
single-word write of data sends [0x80, low byte, high byte, 0xC0 or
(addr and 0x3f)] with no readback; the address is bounded to 6 bits. -/
theorem C8_eeprom_wire_encoding (addr data b0 b1 b2 b3 : Nat) :
    read_eeprom_ops addr
      = [UsbOp.ctrlOut [0x80, 0, 0, 0x80 + addr % 64], UsbOp.ctrlIn] ∧
    read_eeprom_result [b0, b1, b2, b3] = b1 + b2 * 256 ∧
    write_eeprom_ops addr data
      = [UsbOp.ctrlOut [0x80, data % 65536 % 256, data % 65536 / 256, 0xc0 + addr % 64]] ∧
    (write_eeprom_ops addr data).all (fun op => op != UsbOp.ctrlIn) = true ∧
    addr % 64 ≤ 63 := by
  obtain ⟨hr, hw⟩ := lor_small_aux (addr % 64) (Nat.mod_lt addr (by norm_num))
  refine ⟨?_, ?_, ?_, ?_, ?_⟩
  · simp [read_eeprom_ops, read_eeprom_frame, hr]
  · simp [read_eeprom_result]
  · simp [write_eeprom_ops, write_eeprom_frame, hw]
  · rfl
  · omega

/-- Claim C9: for every 4-byte input report, the decoded value takes bits 0-3
from byte 1's low nibble and bits 4-5 from byte 0's bits 0-1 shifted up by 4;
the CM119 additionally passes through bits 6-7 of byte 1; the CM108AH forces
bit 1 of the result to the inverse of byte 0's bit 4, overriding the value
decoded from byte 1, and keeps the remaining bits as in the base decode. -/
theorem C9_getin_decode (b0 b1 : Nat) (h0 : b0 < 256) (h1 : b1 < 256) :
    (getin DEV_C108 b0 b1 % 16 = b1 % 16 ∧
     getin DEV_C108 b0 b1 / 16 % 4 = b0 % 4 ∧
     getin DEV_C108 b0 b1 / 64 = 0) ∧
    (getin DEV_C119 b0 b1 % 16 = b1 % 16 ∧
     getin DEV_C119 b0 b1 / 16 % 4 = b0 % 4 ∧
     getin DEV_C119 b0 b1 / 64 = b1 / 64) ∧
    (getin DEV_C108AH b0 b1 % 2 = b1 % 2 ∧
     getin DEV_C108AH b0 b1 / 2 % 2 = 1 - b0 / 16 % 2 ∧
     getin DEV_C108AH b0 b1 / 4 % 4 = b1 / 4 % 4 ∧
     getin DEV_C108AH b0 b1 / 16 % 4 = b0 % 4 ∧
     getin DEV_C108AH b0 b1 / 64 = 0) := by
  have e1 : getin DEV_C108 b0 b1 = b1 % 16 + b0 % 4 * 16 := rfl
  have e2 : getin DEV_C119 b0 b1 = b1 % 16 + b0 % 4 * 16 + b1 / 64 % 4 * 64 := rfl
  have e3 : getin DEV_C108AH b0 b1
      = (b1 % 16 + b0 % 4 * 16) % 2 + (b1 % 16 + b0 % 4 * 16) / 4 * 4
        + (if b0 / 16 % 2 = 0 then 2 else 0) := rfl
  rw [e1, e2, e3]
  by_cases hb : b0 / 16 % 2 = 0 <;> simp only [hb, if_true, if_false, reduceIte] <;> omega

/-- Witness for C9 at the concrete report bytes 0x13 and 0xa7. -/
theorem C9_getin_decode_witness :
    ((0x13 : Nat) < 256 ∧ (0xa7 : Nat) < 256) ∧
    ((getin DEV_C108 0x13 0xa7 % 16 = 0xa7 % 16 ∧
      getin DEV_C108 0x13 0xa7 / 16 % 4 = 0x13 % 4 ∧
      getin DEV_C108 0x13 0xa7 / 64 = 0) ∧
     (getin DEV_C119 0x13 0xa7 % 16 = 0xa7 % 16 ∧
      getin DEV_C119 0x13 0xa7 / 16 % 4 = 0x13 % 4 ∧
      getin DEV_C119 0x13 0xa7 / 64 = 0xa7 / 64) ∧
     (getin DEV_C108AH 0x13 0xa7 % 2 = 0xa7 % 2 ∧
      getin DEV_C108AH 0x13 0xa7 / 2 % 2 = 1 - 0x13 / 16 % 2 ∧
      getin DEV_C108AH 0x13 0xa7 / 4 % 4 = 0xa7 / 4 % 4 ∧
      getin DEV_C108AH 0x13 0xa7 / 16 % 4 = 0x13 % 4 ∧
      getin DEV_C108AH 0x13 0xa7 / 64 = 0)) :=
  ⟨⟨by decide, by decide⟩, C9_getin_decode 0x13 0xa7 (by decide) (by decide)⟩

/-- Claim C10: eeprom_test issues exactly one write — the sentinel 0x6942 to the
spare word at address 62 — leaving every other address, the checksum word at
63 included, unchanged; hence a user segment that was checksum-valid with a
spare word other than 0x6942 is no longer checksum-valid afterwards, while
the test's own readback comparison succeeds. -/
theorem C10_eeprom_test_frame_effect (mem : Nat → Nat) (h62 : mem 62 < 65536)
    (hcs : get_eeprom_cs mem = 0) (hsp : mem 62 ≠ 0x6942) :
    eeprom_test_writes.length = 1 ∧
    eeprom_test_mem mem = (fun a => if a = 62 then 0x6942 else mem a) ∧
    eeprom_test_nerror mem = 0 ∧
    get_eeprom_cs (eeprom_test_mem mem) ≠ 0 := by
  have hmem : eeprom_test_mem mem = (fun a => if a = 62 then 0x6942 else mem a) := by
    funext a
    simp [eeprom_test_mem, apply_writes, eeprom_test_writes, write_eeprom_word,
      EEPROM_START_ADDR, EEPROM_USER_SPARE]
  refine ⟨rfl, hmem, ?_, ?_⟩
  · simp only [eeprom_test_nerror, hmem, read_eeprom_word, EEPROM_START_ADDR, EEPROM_USER_SPARE]
    norm_num
  · rw [hmem]
    simp only [get_eeprom_cs, get_eeprom_words, EEPROM_START_ADDR, range13_eval,
      read_eeprom_word, List.map_cons, List.map_nil, List.sum_cons, List.sum_nil] at hcs ⊢
    norm_num at hcs ⊢
    omega

/-- Witness for C10 at a concrete checksum-valid EEPROM image. -/
theorem C10_eeprom_test_frame_effect_witness :
    (valid_user_mem 62 < 65536 ∧ get_eeprom_cs valid_user_mem = 0 ∧
      valid_user_mem 62 ≠ 0x6942) ∧
    (eeprom_test_writes.length = 1 ∧
     eeprom_test_mem valid_user_mem = (fun a => if a = 62 then 0x6942 else valid_user_mem a) ∧
     eeprom_test_nerror valid_user_mem = 0 ∧
     get_eeprom_cs (eeprom_test_mem valid_user_mem) ≠ 0) :=
  ⟨⟨by decide, by decide, by decide⟩,
    C10_eeprom_test_frame_effect valid_user_mem (by decide) (by decide) (by decide)⟩

end Uridiag
